import Mathlib

/-!
Shallow embedding of the termulizer audio-visualizer core (Go sources):
the FBM noise generator (noise_generator.go), the spectral analyzer
(audio_processor.go, the elaborate stereo pipeline that the claims cite),
the render-side smoothing and beam cell merging (beam_renderer.go,
strand_renderer.go) and the color math of the performance cache.
Go float64 values are modelled as real numbers; Go's int conversions are
modelled as truncation toward zero; the external opensimplex noise and the
gonum FFT are modelled as abstract function parameters.
-/

namespace Termulizer

noncomputable section

/-! ### Noise generator (noise_generator.go)

The opensimplex library is external to the repository, so a noise source is
an abstract function of two coordinates. -/

/-- NoiseGenerator: the opensimplex noise (abstract) and the time cursor. -/
structure NoiseGenerator where
  eval2 : ℝ → ℝ → ℝ
  time : ℝ

/-- The body of the GenerateFBM loop: iteration count, current frequency and
amplitude; returns (total, maxValue).  Each iteration adds
`noise(x*frequency, y*frequency) * amplitude` to the total and `amplitude`
to the weight sum, then doubles the frequency and multiplies the amplitude
by the persistence, exactly as the Go loop does. -/
def fbmLoop (e : ℝ → ℝ → ℝ) (x y p : ℝ) : ℕ → ℝ → ℝ → ℝ × ℝ
  | 0, _, _ => (0, 0)
  | n + 1, frequency, amplitude =>
    let rest := fbmLoop e x y p n (frequency * 2) (amplitude * p)
    (e (x * frequency) (y * frequency) * amplitude + rest.1, amplitude + rest.2)

/-- GenerateFBM: runs the loop `octaves` times (a Go `for i := 0; i < octaves`
loop runs `max 0 octaves` times, which is `Int.toNat octaves`) starting from
frequency 1 and amplitude 1, then divides the total by the weight sum.
Go computes `total / maxValue` in float64 (0/0 there is NaN); here the
division is real division. -/
def GenerateFBM (ng : NoiseGenerator) (x y : ℝ) (octaves : ℤ) (persistence : ℝ) : ℝ :=
  let r := fbmLoop ng.eval2 x y persistence octaves.toNat 1 1
  r.1 / r.2

/-- The normalizing weight sum (`maxValue`) that GenerateFBM divides by. -/
def fbmNormalizer (ng : NoiseGenerator) (x y : ℝ) (octaves : ℤ) (persistence : ℝ) : ℝ :=
  (fbmLoop ng.eval2 x y persistence octaves.toNat 1 1).2

/-- Generate: plain 2D noise evaluation. -/
def Generate (ng : NoiseGenerator) (x y : ℝ) : ℝ := ng.eval2 x y

/-- A concrete noise generator (constant zero noise) used to evaluate the
noise-independent parts of the FBM pipeline at concrete inputs. -/
def zeroNoise : NoiseGenerator := ⟨fun _ _ => 0, 0⟩

/-! ### Spectral analyzer (audio_processor.go, second/elaborate version)

The claims cite the elaborate stereo `ProcessBuffer` (lines 137-344): it
validates the buffer, de-interleaves stereo samples, runs one FFT per
channel, extracts nine log1p-weighted band energies with stereo-width
bonus, power taper and per-band calibration gains, sanitizes non-finite or
non-positive values to 0, clamps to 1, lifts very quiet bands, and derives
the chaos scalar. -/

/-- One frequency band (Hz range); names are omitted. -/
structure FrequencyBand where
  minFreq : ℝ
  maxFreq : ℝ

/-- The package-level `bands` table of main.go. -/
def bands : List FrequencyBand :=
  [⟨20, 60⟩, ⟨60, 250⟩, ⟨250, 500⟩, ⟨500, 1000⟩, ⟨1000, 2000⟩,
   ⟨2000, 4000⟩, ⟨4000, 6000⟩, ⟨6000, 12000⟩, ⟨12000, 20000⟩]

/-- The `scaleFactors` table inside ProcessBuffer: per-band calibration
gains from Sub-Bass up to Air. -/
def scaleFactors : List ℝ := [10, 12, 14, 16, 18, 22, 26, 30, 35]

/-- De-interleave `[L, R, L, R, ...]` into the two channels, as the stereo
branch of ProcessBuffer does with its `i += 2` copy loop. -/
def deinterleave : List ℝ → List ℝ × List ℝ
  | [] => ([], [])
  | [a] => ([a], [])
  | a :: b :: rest =>
    let r := deinterleave rest
    (a :: r.1, b :: r.2)

/-- Channel splitting: even-length buffers are de-interleaved as stereo;
odd-length buffers fall back to mono (the same samples on both channels). -/
def splitChannels (buffer : List ℝ) : List ℝ × List ℝ :=
  if buffer.length % 2 = 0 then deinterleave buffer else (buffer, buffer)

/-- The sample sequence ProcessBuffer hands to the left-channel forward
transform (`ap.fft.Coefficients(nil, leftChannel)`): the de-interleaved
left channel itself, with no further per-sample processing. -/
def fftInputLeft (buffer : List ℝ) : List ℝ := (splitChannels buffer).1

/-- Go's int(x) conversion: truncation toward zero. -/
def truncInt (x : ℝ) : ℤ := if 0 ≤ x then ⌊x⌋ else ⌈x⌉

/-- The squared log1p-weighted magnitude `(m * log1p m)^2` accumulated per
bin and channel. -/
def weightedSq (m : ℝ) : ℝ := (m * Real.log (1 + m)) ^ 2

/-- The per-channel band accumulation: sum of `weightedSq` of the
coefficient magnitudes over bins `minBin ≤ j < maxBin` with `j` also below
the coefficient count (the loop's second bound). -/
def channelBandSum (coeffs : List ℂ) (minBin maxBin : ℕ) : ℝ :=
  (((List.range' minBin (maxBin - minBin)).filter (fun j => j < coeffs.length)).map
    (fun j => weightedSq (Complex.abs (coeffs.getD j 0)))).sum

/-- The stereo combination stage of the band loop: average of the two
channel RMS values plus the stereo-width bonus `|L-R| * 0.3`, the power
taper with exponent 0.8, and the per-band calibration gain (bands past the
table would get the 100000 fallback gain). -/
def combinedBandEnergy (leftEnergy rightEnergy : ℝ) (i : ℕ) : ℝ :=
  let stereoWidth := |leftEnergy - rightEnergy| * 0.3
  let bandEnergy0 := (leftEnergy + rightEnergy) / 2 + stereoWidth
  let bandEnergy1 := bandEnergy0 ^ (0.8 : ℝ)
  bandEnergy1 * scaleFactors.getD i 100000

/-- The value stored into `bandEnergies[i]` by the band loop: bin-range
resolution with clamping, the two channel RMS computations, the stereo
combination, and the final sanitization (`NaN`, `Inf` or non-positive
results become 0; in the real-number model that is the `> 0` test). -/
def storedBand (lc rc : List ℂ) (binWidth : ℝ) (i : ℕ) : ℝ :=
  let fb := bands.getD i ⟨0, 0⟩
  let minBin0 := truncInt (fb.minFreq / binWidth)
  let maxBin0 := truncInt (fb.maxFreq / binWidth)
  let minBin := if minBin0 < 0 then 0 else minBin0
  let maxBin := if maxBin0 > (lc.length : ℤ) then (lc.length : ℤ) else maxBin0
  if maxBin ≤ minBin then 0
  else
    let leftBandSum := channelBandSum lc minBin.toNat maxBin.toNat
    let rightBandSum := channelBandSum rc minBin.toNat maxBin.toNat
    let denom : ℝ := ((maxBin - minBin : ℤ) : ℝ)
    if denom ≤ 0 then 0
    else
      let leftEnergy := Real.sqrt (leftBandSum / denom)
      let rightEnergy := Real.sqrt (rightBandSum / denom)
      let bandEnergy := combinedBandEnergy leftEnergy rightEnergy i
      if bandEnergy > 0 then bandEnergy else 0

/-- The post-band normalization step applied in place to every entry:
clamp values above 1.0 to 1.0, then lift values in (0.001, 0.1) to
`0.1 + v * 2`. -/
def normalizeBand (v : ℝ) : ℝ :=
  let v1 := if v > 1 then 1 else v
  if v1 < 0.1 ∧ v1 > 0.001 then 0.1 + v1 * 2 else v1

/-- `math.Max(0, math.Min(1, x))`. -/
def clamp01 (x : ℝ) : ℝ := max 0 (min 1 x)

/-- calculateChaos: zero below the 0.0001 total-energy threshold, else the
clamped mix of the variance of the normalized band vector around the
uniform mean and the tanh-compressed total energy. -/
def calculateChaos (energies : List ℝ) (total : ℝ) : ℝ :=
  if total < 0.0001 then 0
  else
    let normalized := energies.map (fun e => e / total)
    let mean := 1 / (energies.length : ℝ)
    let variance := (normalized.map (fun n => (n - mean) ^ 2)).sum
    let energyFactor := Real.tanh (total * 10)
    clamp01 (variance * 5.0 * 0.6 + energyFactor * 0.4)

/-- The analyzer's result: the nine band energies and the chaos scalar
(timestamp and metadata are irrelevant to the claims and omitted). -/
structure AudioMessage where
  Bands : List ℝ
  ChaosLevel : ℝ

/-- The all-zero message ProcessBuffer returns on invalid input. -/
def zeroMessage : AudioMessage := ⟨List.replicate 9 0, 0⟩

/-- ProcessBuffer with the FFT (gonum, external) abstract: empty-buffer
check, channel split, per-channel FFT, empty-coefficient check, band
extraction, totalEnergy accumulation (equal to the sum of the stored
values, since rejected values store and add 0), in-place normalization,
and the chaos computation on the normalized bands with the
pre-normalization total. -/
def processBuffer (fft : List ℝ → List ℂ) (sampleRate : ℝ) (buffer : List ℝ) : AudioMessage :=
  if buffer.length = 0 then zeroMessage
  else
    let left := (splitChannels buffer).1
    let right := (splitChannels buffer).2
    let lc := fft left
    let rc := fft right
    if lc.length = 0 ∨ rc.length = 0 then zeroMessage
    else
      let binWidth := sampleRate / (left.length : ℝ)
      let stored := (List.range 9).map (storedBand lc rc binWidth)
      let totalEnergy := stored.sum
      let finalBands := stored.map normalizeBand
      ⟨finalBands, calculateChaos finalBands totalEnergy⟩

/-- Modelled from the spec: the fixed analysis window of pipeline step 2
("apply a fixed analysis window (precomputed once per buffer size) to each
channel"), the Hann window `0.5 * (1 - cos(2*pi*i/(N-1)))` that the
repository's sibling analyzer builds with gonum's `window.Hann`. -/
def hannWindow (size i : ℕ) : ℝ :=
  0.5 * (1 - Real.cos (2 * Real.pi * (i : ℝ) / ((size : ℝ) - 1)))

/-- Modelled from the spec: what the left-channel transform input would be
if the claimed windowing step existed — the de-interleaved channel
multiplied pointwise by the precomputed window. -/
def windowedFftInputLeft (buffer : List ℝ) : List ℝ :=
  let left := fftInputLeft buffer
  (List.range left.length).map (fun i => left.getD i 0 * hannWindow left.length i)

/-! ### Render-side smoothing (beam_renderer.go, strand_renderer.go) -/

/-- The beam strategy's `smoothFactor` (RenderPlasmaBeams). -/
def beamSmoothFactor : ℝ := 0.35

/-- The strand strategy's `smoothFactor` (RenderVerticalWaves). -/
def strandSmoothFactor : ℝ := 0.3

/-- One exponential-smoothing update `old*(1-a) + new*a`. -/
def smoothUpdate (a old w : ℝ) : ℝ := old * (1 - a) + w * a

/-- The beam renderer's per-invocation update of a smoothed band (or of the
smoothed chaos). -/
def beamSmoothUpdate (old w : ℝ) : ℝ := smoothUpdate beamSmoothFactor old w

/-- The strand renderer's per-invocation update. -/
def strandSmoothUpdate (old w : ℝ) : ℝ := smoothUpdate strandSmoothFactor old w

/-! ### Beam cell compositing (beam_renderer.go, renderVerticalBeamParallel) -/

/-- The two-piece per-cell falloff: a linear bright core below distance 0.3
and a fast exponential aura beyond it. -/
def beamFalloff (dist : ℝ) : ℝ :=
  if dist < 0.3 then 1 - dist * 0.8 else 0.75 * Real.exp (-4.5 * (dist - 0.3))

/-- The electric flicker factor `0.92 + 0.16*sin(time*25 + y*0.6)`; `s` is
the sine value, which ranges over [-1, 1]. -/
def beamFlicker (s : ℝ) : ℝ := 0.92 + 0.16 * s

/-- The intensity a beam contributes to one cell: smoothed band energy
times falloff times flicker. -/
def beamIntensity (energy dist s : ℝ) : ℝ := energy * beamFalloff dist * beamFlicker s

/-- The guarded write of one beam contribution into a grid cell (the
mutex-protected block): contributions at or below 0.04 are skipped; a
write onto a dim cell stores the intensity as is; a write onto a lit cell
merges to `max(current, min(1, current + intensity*0.5))`. -/
def writeCell (cur intensity : ℝ) : ℝ :=
  if intensity > 0.04 then
    if cur > 0.04 then max cur (min 1 (cur + intensity * 0.5))
    else intensity
  else cur

/-! ### Color math (performance cache: ApplyGradient, BlendColors,
parseHex, uint8ToHex) -/

/-- unhex: decimal, lowercase and uppercase hex digit ranges; anything
else decodes as 0 (the Go switch's fallthrough). -/
def unhex (b : Char) : ℕ :=
  if 'a' ≤ b ∧ b ≤ 'f' then b.toNat - 'a'.toNat + 10
  else if 'A' ≤ b ∧ b ≤ 'F' then b.toNat - 'A'.toNat + 10
  else if '0' ≤ b ∧ b ≤ '9' then b.toNat - '0'.toNat
  else 0

/-- hexToUint8: `(unhex(h) << 4) | unhex(l)`. -/
def hexToUint8 (h l : Char) : ℕ := (unhex h <<< 4) ||| unhex l

/-- parseHex: the only validity check is length 7 and a leading `#`; the
six digit positions are decoded by `unhex` without further validation.
Returns (r, g, b, ok). -/
def parseHex (hex : String) : ℕ × ℕ × ℕ × Bool :=
  if hex.length = 7 ∧ hex.data.getD 0 ' ' = '#' then
    (hexToUint8 (hex.data.getD 1 ' ') (hex.data.getD 2 ' '),
     hexToUint8 (hex.data.getD 3 ' ') (hex.data.getD 4 ' '),
     hexToUint8 (hex.data.getD 5 ' ') (hex.data.getD 6 ' '),
     true)
  else (0, 0, 0, false)

/-- Go's `uint8(f)` conversion on the in-range values these functions
produce: truncation toward zero, reduced mod 256. -/
def floatToUint8 (x : ℝ) : ℕ := (truncInt x).toNat % 256

/-- The uint8ToHex digit table. -/
def hexDigitChars : List Char :=
  ['0', '1', '2', '3', '4', '5', '6', '7', '8', '9', 'A', 'B', 'C', 'D', 'E', 'F']

/-- uint8ToHex: `#` followed by high/low nibbles of r, g, b. -/
def uint8ToHex (r g b : ℕ) : String :=
  ⟨['#',
    hexDigitChars.getD (r >>> 4) '0', hexDigitChars.getD (r &&& 15) '0',
    hexDigitChars.getD (g >>> 4) '0', hexDigitChars.getD (g &&& 15) '0',
    hexDigitChars.getD (b >>> 4) '0', hexDigitChars.getD (b &&& 15) '0']⟩

/-- ApplyGradient: bail out unchanged when parseHex rejects; otherwise
scale the channels by the brightness factor, blend toward white above
intensity 0.7, and re-encode. -/
def ApplyGradient (baseColor : String) (intensity : ℝ) : String :=
  let p := parseHex baseColor
  if p.2.2.2 = false then baseColor
  else
    let brightnessFactor := 0.2 + intensity ^ (0.7 : ℝ) * 0.8
    let heatFactor := if intensity > 0.7 then (intensity - 0.7) / 0.3 else 0
    let rf := (p.1 : ℝ) * brightnessFactor
    let gf := (p.2.1 : ℝ) * brightnessFactor
    let bf := (p.2.2.1 : ℝ) * brightnessFactor
    let rf2 := rf * (1 - heatFactor) + 255 * heatFactor
    let gf2 := gf * (1 - heatFactor) + 255 * heatFactor
    let bf2 := bf * (1 - heatFactor) + 255 * heatFactor
    uint8ToHex (floatToUint8 rf2) (floatToUint8 gf2) (floatToUint8 bf2)

/-- BlendColors: a rejected first color yields the second unchanged, a
rejected second color yields the first unchanged, otherwise per-channel
linear interpolation. -/
def BlendColors (c1 c2 : String) (t : ℝ) : String :=
  let p1 := parseHex c1
  let p2 := parseHex c2
  if p1.2.2.2 = false then c2
  else if p2.2.2.2 = false then c1
  else
    uint8ToHex
      (floatToUint8 ((p1.1 : ℝ) * (1 - t) + (p2.1 : ℝ) * t))
      (floatToUint8 ((p1.2.1 : ℝ) * (1 - t) + (p2.2.1 : ℝ) * t))
      (floatToUint8 ((p1.2.2.1 : ℝ) * (1 - t) + (p2.2.2.1 : ℝ) * t))

/-- Modelled from the spec: a well-formed 7-character #RRGGBB hex string in
the claim's sense — a `#` followed by six actual hexadecimal digits. -/
def isWellFormedHex (s : String) : Bool :=
  s.length = 7 && s.data.getD 0 ' ' = '#' &&
    (s.data.drop 1).all (fun c =>
      ('0' ≤ c && c ≤ '9') || ('a' ≤ c && c ≤ 'f') || ('A' ≤ c && c ≤ 'F'))

/-- The malformed (non-hex-digit) 7-character color of the C8 analysis. -/
def zzColor : String := "#ZZZZZZ"

/-- Pure black, what ApplyGradient actually returns on `zzColor`. -/
def blackColor : String := "#000000"

/-- A well-formed color used alongside a malformed one in blending. -/
def greenColor : String := "#00FF00"

/-- A too-short color string, rejected by parseHex's structural check. -/
def shortColor : String := "abc"

end

/-! ## Helper lemmas -/

/-- The weight sum accumulated by the FBM loop is non-negative whenever the
starting amplitude and the persistence are. -/
theorem fbmLoop_snd_nonneg (e : ℝ → ℝ → ℝ) (x y p : ℝ) (hp : 0 ≤ p) :
    ∀ (n : ℕ) (f a : ℝ), 0 ≤ a → 0 ≤ (fbmLoop e x y p n f a).2
  | 0, _, _, _ => by simp [fbmLoop]
  | n + 1, f, a, ha => by
    have h := fbmLoop_snd_nonneg e x y p hp n (f * 2) (a * p) (mul_nonneg ha hp)
    simp only [fbmLoop]
    linarith

/-- clamp01 lands in the unit interval. -/
theorem clamp01_mem (x : ℝ) : 0 ≤ clamp01 x ∧ clamp01 x ≤ 1 := by
  unfold clamp01
  exact ⟨le_max_left 0 _, max_le (by norm_num) (min_le_left 1 x)⟩

/-- Every value the band loop stores is non-negative: all rejection paths
store 0 and the acceptance path requires positivity. -/
theorem storedBand_nonneg (lc rc : List ℂ) (bw : ℝ) (i : ℕ) : 0 ≤ storedBand lc rc bw i := by
  simp only [storedBand]
  split_ifs <;> linarith

/-- The clamp-then-lift normalization keeps a non-negative band inside
the unit interval. -/
theorem normalizeBand_mem_unit (v : ℝ) (hv : 0 ≤ v) :
    0 ≤ normalizeBand v ∧ normalizeBand v ≤ 1 := by
  simp only [normalizeBand]
  split_ifs <;> constructor <;> linarith

/-- A getD lookup either hits a member of the list or the default. -/
theorem getD_mem_or_default (L : List ℝ) (i : ℕ) (d : ℝ) :
    L.getD i d ∈ L ∨ L.getD i d = d := by
  rcases lt_or_le i L.length with h | h
  · left
    rw [List.getD_eq_getElem _ _ h]
    exact List.getElem_mem h
  · right
    exact List.getD_eq_default _ _ h

/-- The first channel of `deinterleave` holds the even-indexed samples. -/
theorem deinterleave_fst_getD :
    ∀ (l : List ℝ) (i : ℕ), (deinterleave l).1.getD i 0 = l.getD (2 * i) 0
  | [], i => by simp [deinterleave]
  | [a], i => by
    cases i with
    | zero => simp [deinterleave]
    | succ n =>
      simp only [deinterleave]
      rw [show 2 * (n + 1) = 2 * n + 1 + 1 by ring]
      simp [List.getD_cons_succ]
  | a :: b :: rest, 0 => by simp [deinterleave]
  | a :: b :: rest, i + 1 => by
    have ih := deinterleave_fst_getD rest i
    simp only [deinterleave]
    rw [show 2 * (i + 1) = 2 * i + 1 + 1 by ring]
    simpa [List.getD_cons_succ] using ih

/-- writeCell keeps a cell at 1 or below when both the cell and the
incoming intensity are. -/
theorem writeCell_le_one (cur i : ℝ) (hc : cur ≤ 1) (hi : i ≤ 1) : writeCell cur i ≤ 1 := by
  unfold writeCell
  split_ifs
  · exact max_le hc (min_le_left _ _)
  · exact hi
  · exact hc

/-! ## Claim theorems -/

/-- C7: for every noise source, coordinates and persistence, the
single-octave GenerateFBM collapses to the plain 2D noise evaluation
Generate. -/
theorem generateFBM_one_octave_eq_generate (ng : NoiseGenerator) (x y p : ℝ) :
    GenerateFBM ng x y 1 p = Generate ng x y := by
  simp [GenerateFBM, fbmLoop, Generate]

/-- C9: ProcessBuffer on an empty input block returns all-zero band
energies and a zero chaos scalar (the guarded early return), for any FFT
and sample rate. -/
theorem processBuffer_empty_all_zero (fft : List ℝ → List ℂ) (sampleRate : ℝ) :
    (processBuffer fft sampleRate []).Bands = List.replicate 9 0
    ∧ (processBuffer fft sampleRate []).ChaosLevel = 0 := by
  simp [processBuffer, zeroMessage]

/-- C6 (amended): both renderers update a smoothed value as the fixed
convex combination `old*(1-a) + new*a` with a = 0.35 (beam) and a = 0.3
(strand); the update lies between the minimum and the maximum of the
previous value and the newest sample (it can exceed the smaller of the
two, but never the larger). -/
theorem smoothUpdate_within_bounds (old w : ℝ) :
    beamSmoothUpdate old w = old * (1 - 0.35) + w * 0.35
    ∧ strandSmoothUpdate old w = old * (1 - 0.3) + w * 0.3
    ∧ min old w ≤ beamSmoothUpdate old w ∧ beamSmoothUpdate old w ≤ max old w
    ∧ min old w ≤ strandSmoothUpdate old w ∧ strandSmoothUpdate old w ≤ max old w := by
  unfold beamSmoothUpdate strandSmoothUpdate smoothUpdate beamSmoothFactor strandSmoothFactor
  rcases le_total old w with h | h
  · rw [min_eq_left h, max_eq_right h]
    refine ⟨rfl, rfl, by linarith, by linarith, by linarith, by linarith⟩
  · rw [min_eq_right h, max_eq_left h]
    refine ⟨rfl, rfl, by linarith, by linarith, by linarith, by linarith⟩

/-- C6 counterexample: with previous value 0 and newest sample 1, both
strategies' updated smoothed values are strictly greater than the previous
value 0, so an update can exceed one of the two combined values. -/
theorem smoothUpdate_exceeds_smaller_value :
    beamSmoothUpdate 0 1 = 0.35 ∧ (0:ℝ) < beamSmoothUpdate 0 1
    ∧ strandSmoothUpdate 0 1 = 0.3 ∧ (0:ℝ) < strandSmoothUpdate 0 1 := by
  norm_num [beamSmoothUpdate, strandSmoothUpdate, smoothUpdate,
    beamSmoothFactor, strandSmoothFactor]

/-- C4: calculateChaos returns 0 below the 0.0001 total-energy threshold;
at or above it, for the nine-band vector, it is the clamped mix of the
variance of the total-normalized bands around the uniform mean 1/9
(weighted 5*0.6) and tanh(total*10) (weighted 0.4); and the result always
lies in [0, 1]. -/
theorem calculateChaos_spec (energies : List ℝ) (total : ℝ) :
    (total < 0.0001 → calculateChaos energies total = 0)
    ∧ (energies.length = 9 → 0.0001 ≤ total →
        calculateChaos energies total =
          clamp01 (((energies.map (fun e => e / total)).map
            (fun n => (n - 1 / 9) ^ 2)).sum * 5.0 * 0.6 + Real.tanh (total * 10) * 0.4))
    ∧ 0 ≤ calculateChaos energies total ∧ calculateChaos energies total ≤ 1 := by
  refine ⟨fun h => by simp [calculateChaos, h], fun hlen htot => ?_, ?_⟩
  · simp only [calculateChaos, hlen]
    rw [if_neg (by linarith)]
    norm_num
  · simp only [calculateChaos]
    split_ifs
    · norm_num
    · exact clamp01_mem _

/-- C5: the band loop combines the two channels' RMS values as
`(L + R)/2 + 0.3*|L - R|`, tapers with the 0.8 power and multiplies by the
per-band calibration gain; and the nine gains are strictly increasing from
Sub-Bass to Air. -/
theorem bandCombination_spec :
    (∀ (l r : ℝ) (i : Fin 9),
        combinedBandEnergy l r i =
          ((l + r) / 2 + 0.3 * |l - r|) ^ (0.8 : ℝ) * scaleFactors.getD i 100000)
    ∧ List.Pairwise (· < ·) scaleFactors := by
  constructor
  · intro l r i
    have h : (l + r) / 2 + |l - r| * 0.3 = (l + r) / 2 + 0.3 * |l - r| := by ring
    simp only [combinedBandEnergy]
    rw [h]
  · norm_num [scaleFactors, List.pairwise_cons]

/-- C3 (amended): GenerateFBM iterates exactly the requested octave count
(no max(1, requested) guard); for a request of at least one octave and a
non-negative persistence the normalizing weight sum is at least 1, hence
nonzero and the result well defined. -/
theorem fbmNormalizer_ge_one (ng : NoiseGenerator) (x y : ℝ) (octaves : ℤ) (p : ℝ)
    (ho : 1 ≤ octaves) (hp : 0 ≤ p) : 1 ≤ fbmNormalizer ng x y octaves p := by
  unfold fbmNormalizer
  obtain ⟨m, hm⟩ : ∃ m, octaves.toNat = m + 1 := ⟨octaves.toNat - 1, by omega⟩
  rw [hm]
  simp only [fbmLoop]
  have h := fbmLoop_snd_nonneg ng.eval2 x y p hp m (1 * 2) (1 * p) (by simpa using hp)
  linarith

/-- C3 witness: one octave and persistence 1/2 satisfy the hypotheses and
give a weight sum of at least 1. -/
theorem fbmNormalizer_ge_one_witness :
    (1 ≤ (1:ℤ)) ∧ (0 ≤ (1/2 : ℝ)) ∧ 1 ≤ fbmNormalizer zeroNoise 0 0 1 (1/2) :=
  ⟨le_refl 1, by norm_num, fbmNormalizer_ge_one zeroNoise 0 0 1 (1/2) (le_refl 1) (by norm_num)⟩

/-- C3 counterexample: a zero-octave request runs the loop zero times, so
the normalizing weight sum is exactly 0 — not the claimed max(1, requested)
behavior (Go then divides 0/0, which is NaN). -/
theorem fbmNormalizer_zero_octaves_zero :
    fbmNormalizer zeroNoise 0 0 0 (1/2) = 0 := by
  simp [fbmNormalizer, fbmLoop]

/-- C10 (amended): the merge arithmetic keeps every cell at or below 1
provided every written beam intensity is at most 1: starting from an empty
cell, any sequence of writes with intensities at most 1 leaves the cell at
most 1 (the additive overlap raise is capped at 1, and a fresh write
stores the intensity itself). Written intensities can, however, exceed 1,
because the flicker factor reaches 1.08 — see the counterexample. -/
theorem beamCells_bounded_of_unit_writes (ws : List ℝ) (hw : ∀ w ∈ ws, w ≤ 1) :
    List.foldl writeCell 0 ws ≤ 1 := by
  suffices h : ∀ (l : List ℝ), (∀ w ∈ l, w ≤ 1) → ∀ c : ℝ, c ≤ 1 →
      List.foldl writeCell c l ≤ 1 by
    exact h ws hw 0 (by norm_num)
  intro l
  induction l with
  | nil => intro _ c hc; simpa using hc
  | cons a t ih =>
    intro h c hc
    simp only [List.foldl_cons]
    exact ih (fun w hwm => h w (List.mem_cons_of_mem _ hwm)) _
      (writeCell_le_one c a hc (h a (List.mem_cons_self _ _)))

/-- C10 witness: three concrete in-range writes leave the cell at most 1. -/
theorem beamCells_bounded_witness :
    List.foldl writeCell 0 [(1:ℝ)/2, 9/10, 1/5] ≤ 1 := by
  apply beamCells_bounded_of_unit_writes
  intro w hw
  simp only [List.mem_cons, List.not_mem_nil, or_false] at hw
  rcases hw with h | h | h <;> rw [h] <;> norm_num

/-- C10 counterexample: with smoothed energy 0.95, at the beam core
(distance 0) and at a flicker peak (sine value 1), the contributed
intensity is 0.95 * 1 * 1.08 = 1.026; a fresh write stores it unclamped,
leaving a cell above 1, and a later overlap merge keeps the cell at 1.026,
still above 1. -/
theorem beamCell_stores_above_one :
    beamIntensity (19/20) 0 1 = 513/500
    ∧ writeCell 0 (513/500) = 513/500
    ∧ (1:ℝ) < 513/500
    ∧ writeCell (513/500) (1/2) = 513/500 := by
  refine ⟨?_, ?_, by norm_num, ?_⟩
  · rw [beamIntensity, beamFalloff, if_pos (by norm_num)]
    norm_num [beamFlicker]
  · rw [writeCell, if_pos (by norm_num), if_neg (by norm_num)]
  · rw [writeCell, if_pos (by norm_num), if_pos (by norm_num)]
    rw [min_eq_left (by norm_num), max_eq_left (by norm_num)]

/-- C1 (amended): ProcessBuffer applies no analysis window: on an
even-length (stereo) block, the i-th sample handed to the left-channel
forward transform is the raw interleaved sample `buffer[2*i]`, unscaled. -/
theorem fftInput_is_raw_channel (buffer : List ℝ) (i : ℕ) (h : buffer.length % 2 = 0) :
    (fftInputLeft buffer).getD i 0 = buffer.getD (2 * i) 0 := by
  rw [fftInputLeft, splitChannels, if_pos h]
  exact deinterleave_fst_getD buffer i

/-- C1 witness: a concrete even-length block whose second transform-input
sample is its third raw sample. -/
theorem fftInput_is_raw_channel_witness :
    ([(1:ℝ), 2, 3, 4].length % 2 = 0)
    ∧ (fftInputLeft [(1:ℝ), 2, 3, 4]).getD 1 0 = [(1:ℝ), 2, 3, 4].getD 2 0 :=
  ⟨by norm_num, fftInput_is_raw_channel [(1:ℝ), 2, 3, 4] 1 (by norm_num)⟩

/-- C1 counterexample: on the all-ones stereo block of six samples the
first sample reaching the transform is the raw 1, while the claimed
windowing step (the Hann window the sibling analyzer precomputes) would
deliver 0 there — so no fixed analysis window is applied between
de-interleaving and the transform. -/
theorem fftInput_differs_from_windowed :
    (fftInputLeft [1, 1, 1, 1, 1, 1]).getD 0 0 = 1
    ∧ (windowedFftInputLeft [1, 1, 1, 1, 1, 1]).getD 0 0 = 0 := by
  have hsplit : fftInputLeft ([1, 1, 1, 1, 1, 1] : List ℝ) = [1, 1, 1] := by
    rw [fftInputLeft, splitChannels, if_pos (by norm_num)]
    simp [deinterleave]
  constructor
  · rw [hsplit]
    norm_num
  · rw [windowedFftInputLeft, hsplit]
    have hr : List.range 3 = [0, 1, 2] := by decide
    rw [show ([1, 1, 1] : List ℝ).length = 3 by norm_num, hr]
    simp only [List.map_cons, List.getD_cons_zero]
    norm_num [hannWindow, Real.cos_zero]

/-- C2: every entry of the band energy vector ProcessBuffer returns lies
in [0, 1], for every input block, FFT behavior and sample rate: rejected
(in float terms non-finite or non-positive) band values are stored as 0,
stored values are clamped at 1.0, and the lift of values in (0.001, 0.1)
stays inside the unit interval. -/
theorem processBuffer_bands_unit_interval (fft : List ℝ → List ℂ) (sampleRate : ℝ)
    (buffer : List ℝ) (i : ℕ) :
    0 ≤ (processBuffer fft sampleRate buffer).Bands.getD i 0
    ∧ (processBuffer fft sampleRate buffer).Bands.getD i 0 ≤ 1 := by
  have hz : ∀ j : ℕ, (List.replicate 9 (0:ℝ)).getD j 0 = 0 := by
    intro j
    rcases getD_mem_or_default (List.replicate 9 (0:ℝ)) j 0 with h | h
    · exact List.eq_of_mem_replicate h
    · exact h
  have key : ∀ L : List ℝ, (∀ x ∈ L, 0 ≤ x ∧ x ≤ 1) → 0 ≤ L.getD i 0 ∧ L.getD i 0 ≤ 1 := by
    intro L hL
    rcases getD_mem_or_default L i 0 with h | h
    · exact hL _ h
    · rw [h]
      norm_num
  simp only [processBuffer]
  split_ifs
  · simp only [zeroMessage]
    rw [hz i]
    norm_num
  · simp only [zeroMessage]
    rw [hz i]
    norm_num
  · apply key
    intro x hx
    simp only [List.mem_map] at hx
    obtain ⟨v, hv, rfl⟩ := hx
    obtain ⟨j, hj, rfl⟩ := hv
    exact normalizeBand_mem_unit _ (storedBand_nonneg _ _ _ _)

/-- C8 (amended): a color argument failing the code's structural check
(length 7 with a leading #) passes through every color operation
unchanged: ApplyGradient returns its input, BlendColors returns the other
input; that check is the only validation — digit characters are not
checked. -/
theorem colorOps_structural_passthrough :
    (∀ (c : String) (intensity : ℝ),
        (parseHex c).2.2.2 = false → ApplyGradient c intensity = c)
    ∧ (∀ (c1 c2 : String) (t : ℝ),
        (parseHex c1).2.2.2 = false → BlendColors c1 c2 t = c2)
    ∧ (∀ (c1 c2 : String) (t : ℝ),
        (parseHex c1).2.2.2 = true → (parseHex c2).2.2.2 = false → BlendColors c1 c2 t = c1)
    ∧ (∀ c : String,
        (parseHex c).2.2.2 = false ↔ ¬(c.length = 7 ∧ c.data.getD 0 ' ' = '#')) := by
  refine ⟨?_, ?_, ?_, ?_⟩
  · intro c intensity h
    simp only [ApplyGradient]
    rw [if_pos h]
  · intro c1 c2 t h
    simp only [BlendColors]
    rw [if_pos h]
  · intro c1 c2 t h1 h2
    simp only [BlendColors]
    rw [if_neg (by simp [h1]), if_pos h2]
  · intro c
    unfold parseHex
    split_ifs with h
    · exact ⟨fun hf => absurd hf (by simp), fun hn => absurd h hn⟩
    · exact ⟨fun _ => h, fun _ => rfl⟩

/-- C8 counterexample: the 7-character string of non-hex digits `#ZZZZZZ`
is not a well-formed #RRGGBB color, yet ApplyGradient does not return it
unchanged: its digits decode as 0, and the gradient of the resulting black
at intensity 0 is returned instead. -/
theorem applyGradient_transforms_nonhex_digits :
    ApplyGradient zzColor 0 = blackColor
    ∧ isWellFormedHex zzColor = false
    ∧ zzColor ≠ blackColor := by
  refine ⟨?_, by decide, by decide⟩
  have hp : parseHex zzColor = (0, 0, 0, true) := by decide
  have hpow : (0:ℝ) ^ (0.7:ℝ) = 0 := Real.zero_rpow (by norm_num)
  have h8 : floatToUint8 0 = 0 := by
    simp [floatToUint8, truncInt]
  simp only [ApplyGradient, hp]
  rw [if_neg (by simp)]
  rw [if_neg (by norm_num)]
  norm_num [hpow, h8]
  decide

end Termulizer
